import Mathlib

/-!
Verification of the migration coordination and checkpointing core of a
SQLite-to-DynamoDB data-migration tool.

The development shallowly embeds:
* `src/state_manager.py` — the checkpoint store (`StateManager`, `TableState`,
  `MigrationState`) as pure functions over an explicit store state;
* `src/migration_engine.py` — the state-affecting trace of
  `MigrationEngine.resume_migration`;
* `src/dynamodb_manager.py` — the chunking of `batch_write_items` and the
  retry loop of `_execute_batch_write_with_retry`;
* the JSON/kwargs level of `StateManager.load_state` for corruption handling.

Timestamps (`time.time()`) are modelled as explicit `Nat` parameters threaded
into each operation; floating-point delays are modelled as exact rationals.
-/

namespace StateManagerModel

/-- Values of the `MigrationStatus` enum (`state_manager.py` lines 18-24).
The Python code stores the `.value` strings in the dataclasses, so the model
uses the strings themselves. -/
def MigrationStatus.NOT_STARTED : String := "not_started"

/-- The `in_progress` enum value. -/
def MigrationStatus.IN_PROGRESS : String := "in_progress"

/-- The `completed` enum value. -/
def MigrationStatus.COMPLETED : String := "completed"

/-- The `failed` enum value. -/
def MigrationStatus.FAILED : String := "failed"

/-- The `paused` enum value. -/
def MigrationStatus.PAUSED : String := "paused"

/-- `TableState` dataclass (`state_manager.py` lines 27-38): per-group
progress record. Timestamps are abstract `Nat` instants. -/
structure TableState where
  table_name : String
  status : String
  total_records : Nat := 0
  migrated_records : Nat := 0
  last_processed_id : Option String := none
  start_time : Option Nat := none
  end_time : Option Nat := none
  error_count : Nat := 0
  last_error : Option String := none
  deriving Repr, DecidableEq

/-- `TableState.is_complete` (`state_manager.py` lines 47-50). -/
def TableState.is_complete (ts : TableState) : Bool :=
  ts.status == MigrationStatus.COMPLETED

/-- `MigrationState` dataclass (`state_manager.py` lines 60-74). The Python
`table_states` dict is modelled as an insertion-ordered association list. -/
structure MigrationState where
  migration_id : String
  status : String
  start_time : Option Nat := none
  end_time : Option Nat := none
  source_db_path : String := ""
  total_tables : Nat := 0
  completed_tables : Nat := 0
  total_records : Nat := 0
  migrated_records : Nat := 0
  error_count : Nat := 0
  last_checkpoint : Option Nat := none
  table_states : List (String × TableState) := []
  deriving Repr, DecidableEq

/-- `MigrationState.is_complete` (`state_manager.py` lines 87-90). -/
def MigrationState.is_complete (st : MigrationState) : Bool :=
  st.status == MigrationStatus.COMPLETED

/-- Dictionary lookup in the `table_states` association list
(`table_name in self.current_state.table_states` /
`self.current_state.table_states[table_name]`). -/
def lookupTable (l : List (String × TableState)) (n : String) : Option TableState :=
  match l with
  | [] => none
  | p :: rest => if p.1 = n then some p.2 else lookupTable rest n

/-- In-place mutation of the entry named `n` (Python mutates the single dict
entry; keys built from a dict are unique, so mapping every matching entry is
equivalent). -/
def updateTable (l : List (String × TableState)) (n : String)
    (f : TableState → TableState) : List (String × TableState) :=
  l.map fun p => if p.1 = n then (p.1, f p.2) else p

/-- `sum(ts.migrated_records for ts in self.current_state.table_states.values())`
(`state_manager.py` lines 230-232). -/
def sumMigrated (l : List (String × TableState)) : Nat :=
  (l.map fun p => p.2.migrated_records).sum

/-- `sum(1 for ts in ... if ts.is_complete)` (`state_manager.py` lines 269-272). -/
def countCompleted (l : List (String × TableState)) : Nat :=
  l.countP fun p => p.2.is_complete

/-- The visible state of a `StateManager`: the in-memory
`self.current_state` and the persisted checkpoint file (modelled at the level
of the snapshot it deserializes to; `none` = file absent). -/
structure StoreState where
  current : Option MigrationState
  file : Option MigrationState
  deriving Repr, DecidableEq

/-- `StateManager.save_state` (`state_manager.py` lines 187-208): a no-op when
no current state exists; otherwise overwrites the file with a full snapshot
whose `last_checkpoint` field carries the current time (the in-memory state's
own `last_checkpoint` is not modified — `time.time()` is written only into the
serialized dict copy). -/
def save_state (t : Nat) (s : StoreState) : StoreState :=
  match s.current with
  | none => s
  | some st => { s with file := some { st with last_checkpoint := some t } }

/-- `StateManager.initialize_migration` (`state_manager.py` lines 120-157):
creates one `NOT_STARTED` group per `(name, record_count)` entry, a run in
`IN_PROGRESS` with `total_records` the sum of group sizes, and persists. -/
def initialize_migration (migration_id : String) (table_info : List (String × Nat))
    (source_db : String) (t : Nat) (s : StoreState) : StoreState :=
  let table_states := table_info.map fun p =>
    (p.1, ({ table_name := p.1, status := MigrationStatus.NOT_STARTED,
             total_records := p.2 } : TableState))
  let total_records := (table_info.map fun p => p.2).sum
  let st : MigrationState :=
    { migration_id := migration_id
      status := MigrationStatus.IN_PROGRESS
      start_time := some t
      source_db_path := source_db
      total_tables := table_info.length
      total_records := total_records
      table_states := table_states }
  save_state t { s with current := some st }

/-- `StateManager.update_table_progress` (`state_manager.py` lines 210-235):
silent no-op unless a current state exists and the group name is a key;
otherwise sets the group's `migrated_records` to `migrated_count`, updates
`last_processed_id` only when the argument is truthy (non-`None`, non-empty),
recomputes the run-level sum of migrated records and persists. -/
def update_table_progress (table_name : String) (migrated_count : Nat)
    (last_processed_id : Option String) (t : Nat) (s : StoreState) : StoreState :=
  match s.current with
  | none => s
  | some st =>
    match lookupTable st.table_states table_name with
    | none => s
    | some _ =>
      let ts1 := updateTable st.table_states table_name fun ts =>
        let ts2 := { ts with migrated_records := migrated_count }
        match last_processed_id with
        | some lid => if lid ≠ "" then { ts2 with last_processed_id := some lid } else ts2
        | none => ts2
      let st1 := { st with table_states := ts1, migrated_records := sumMigrated ts1 }
      save_state t { s with current := some st1 }

/-- `StateManager.start_table_migration` (`state_manager.py` lines 237-251):
silent no-op on a missing state or unknown group; otherwise marks the group
`IN_PROGRESS`, stamps its `start_time` and persists. -/
def start_table_migration (table_name : String) (t : Nat) (s : StoreState) : StoreState :=
  match s.current with
  | none => s
  | some st =>
    match lookupTable st.table_states table_name with
    | none => s
    | some _ =>
      let ts1 := updateTable st.table_states table_name fun ts =>
        { ts with status := MigrationStatus.IN_PROGRESS, start_time := some t }
      save_state t { s with current := some { st with table_states := ts1 } }

/-- `StateManager.complete_migration` (`state_manager.py` lines 280-289):
marks the run `COMPLETED`, stamps `end_time`, sets the run's
`migrated_records` to its `total_records` (group records untouched) and
persists. -/
def complete_migration (t : Nat) (s : StoreState) : StoreState :=
  match s.current with
  | none => s
  | some st =>
    let st1 := { st with status := MigrationStatus.COMPLETED, end_time := some t,
                         migrated_records := st.total_records }
    save_state t { s with current := some st1 }

/-- `StateManager.complete_table_migration` (`state_manager.py` lines 253-278):
silent no-op on a missing state or unknown group; otherwise marks the group
`COMPLETED` with `migrated_records := total_records`, recounts
`completed_tables`, triggers `complete_migration` when that count reaches
`total_tables`, and persists. -/
def complete_table_migration (table_name : String) (t : Nat) (s : StoreState) : StoreState :=
  match s.current with
  | none => s
  | some st =>
    match lookupTable st.table_states table_name with
    | none => s
    | some _ =>
      let ts1 := updateTable st.table_states table_name fun ts =>
        { ts with status := MigrationStatus.COMPLETED, end_time := some t,
                  migrated_records := ts.total_records }
      let completed := countCompleted ts1
      let st1 := { st with table_states := ts1, completed_tables := completed }
      let s1 := { s with current := some st1 }
      let s2 := if completed = st.total_tables then complete_migration t s1 else s1
      save_state t s2

/-- `StateManager.record_error` (`state_manager.py` lines 291-311): no-op when
no current state exists; otherwise increments the run-level error count,
additionally updates the group's error fields when the name is a key, and
persists. -/
def record_error (table_name : String) (error_message : String) (t : Nat)
    (s : StoreState) : StoreState :=
  match s.current with
  | none => s
  | some st =>
    let st1 := { st with error_count := st.error_count + 1 }
    let st2 :=
      if (lookupTable st1.table_states table_name).isSome then
        { st1 with table_states := updateTable st1.table_states table_name fun ts =>
            { ts with error_count := ts.error_count + 1, last_error := some error_message } }
      else st1
    save_state t { s with current := some st2 }

/-- The state effect of a successful `StateManager.load_state`
(`state_manager.py` lines 159-185) on a well-formed store: with the file
absent it returns `None` leaving `current` untouched; otherwise it
deserializes the snapshot into `current`. -/
def load_state_effect (s : StoreState) : StoreState :=
  match s.file with
  | none => s
  | some st => { s with current := some st }

/-- `StateManager.reset_migration_state` (`state_manager.py` lines 402-407). -/
def reset_migration_state (_s : StoreState) : StoreState :=
  { current := none, file := none }

/-- `StateManager.pause_migration` (`state_manager.py` lines 409-413). -/
def pause_migration (t : Nat) (s : StoreState) : StoreState :=
  match s.current with
  | none => s
  | some st =>
    save_state t { s with current := some { st with status := MigrationStatus.PAUSED } }

/-- `StateManager.resume_migration` (`state_manager.py` lines 415-419): flips
a `PAUSED` run back to `IN_PROGRESS`. -/
def resume_migration_status (t : Nat) (s : StoreState) : StoreState :=
  match s.current with
  | none => s
  | some st =>
    if st.status = MigrationStatus.PAUSED then
      save_state t { s with current := some { st with status := MigrationStatus.IN_PROGRESS } }
    else s

end StateManagerModel

namespace StateManagerModel

/-- The coordinator's usage discipline for `update_table_progress`: the
reported count stays within the group's `total_records` and only a group
currently `IN_PROGRESS` is updated (trivially true when the call would be a
no-op). -/
def update_discipline (s : StoreState) (name : String) (cnt : Nat) : Bool :=
  match s.current with
  | none => true
  | some st =>
    match lookupTable st.table_states name with
    | none => true
    | some ts =>
      decide (cnt ≤ ts.total_records) && (ts.status == MigrationStatus.IN_PROGRESS)

/-- Reachable checkpoint-store states: every public mutator of `StateManager`
is a step. The flag selects plain reachability (`false`) or the disciplined
traces (`true`) in which every `update_table_progress` step satisfies
`update_discipline` (the usage pattern of the coordinator between
`start_table_migration` and `complete_table_migration`). -/
inductive Reach : Bool → StoreState → Prop where
  | empty (d : Bool) : Reach d ⟨none, none⟩
  | init (d : Bool) (migration_id source_db : String) (info : List (String × Nat))
      (t : Nat) (s : StoreState) : Reach d s → (info.map Prod.fst).Nodup →
      Reach d (initialize_migration migration_id info source_db t s)
  | load (d : Bool) (s : StoreState) : Reach d s → Reach d (load_state_effect s)
  | update (d : Bool) (name : String) (cnt : Nat) (lid : Option String) (t : Nat)
      (s : StoreState) : Reach d s →
      (d = true → update_discipline s name cnt = true) →
      Reach d (update_table_progress name cnt lid t s)
  | start (d : Bool) (name : String) (t : Nat) (s : StoreState) : Reach d s →
      Reach d (start_table_migration name t s)
  | completeTable (d : Bool) (name : String) (t : Nat) (s : StoreState) : Reach d s →
      Reach d (complete_table_migration name t s)
  | completeMig (d : Bool) (t : Nat) (s : StoreState) : Reach d s →
      Reach d (complete_migration t s)
  | recordErr (d : Bool) (name msg : String) (t : Nat) (s : StoreState) : Reach d s →
      Reach d (record_error name msg t s)
  | reset (d : Bool) (s : StoreState) : Reach d s → Reach d (reset_migration_state s)
  | pause (d : Bool) (t : Nat) (s : StoreState) : Reach d s → Reach d (pause_migration t s)
  | resumeStatus (d : Bool) (t : Nat) (s : StoreState) : Reach d s →
      Reach d (resume_migration_status t s)

end StateManagerModel

namespace MigrationEngineModel

open StateManagerModel

/-- `MigrationEngine.table_mapping` (`migration_engine.py` lines 48-53). -/
def table_mapping : List (String × List String) :=
  [("music_catalog", ["Artist", "Album", "Track", "Genre", "MediaType"]),
   ("customer_data", ["Customer", "Invoice", "InvoiceLine"]),
   ("playlist_data", ["Playlist", "PlaylistTrack", "Track"]),
   ("employee_data", ["Employee"])]

/-- The group names listed by `StateManager.get_resume_info`
(`state_manager.py` lines 388-398): every group whose status is not
`COMPLETED`, in insertion order. -/
def incomplete_table_names (st : MigrationState) : List String :=
  (st.table_states.filter fun p => !p.2.is_complete).map Prod.fst

/-- The `target_tables_to_resume` set computed by
`MigrationEngine.resume_migration` (`migration_engine.py` lines 233-239):
every target table one of whose constituent source tables is an incomplete
group. Python materializes this as a `set` with unspecified iteration order;
the model fixes the `table_mapping` order (the state effects below are
insensitive to the order for the inputs considered, since each target name is
looked up independently in `table_states`). -/
def targets_to_resume (st : MigrationState) : List String :=
  (table_mapping.filter fun m =>
    (incomplete_table_names st).any fun tb => m.2.contains tb).map Prod.fst

/-- The checkpoint-store effect of a successful
`MigrationEngine._migrate_target_table` call with a non-empty transformed item
list (`migration_engine.py` lines 260-328): mark started, apply the batch-loop
progress updates of `_batch_write_items` (lines 353-390, one
`update_table_progress` per batch with the cumulative processed count and a
stringified offset), then mark completed. `updates` lists the
`(migrated_count, last_processed_id)` argument pairs in batch order. -/
def migrate_target_table_effect (target : String) (updates : List (Nat × Option String))
    (t : Nat) (s : StoreState) : StoreState :=
  let s1 := start_table_migration target t s
  let s2 := updates.foldl (fun acc u => update_table_progress target u.1 u.2 t acc) s1
  complete_table_migration target t s2

/-- The checkpoint-store effect of `MigrationEngine.resume_migration`
(`migration_engine.py` lines 199-258) along its success path: load the state;
return unchanged when absent; return unchanged when already complete;
otherwise process every target table touching an incomplete group (each with
non-empty items and fully successful writes) and finally call
`complete_migration`. When no incomplete group exists the code calls
`complete_migration` directly, which coincides with folding over the then-empty
target list. -/
def resume_migration_effect (updates : String → List (Nat × Option String))
    (t : Nat) (s : StoreState) : StoreState :=
  let s0 := load_state_effect s
  match s0.current with
  | none => s0
  | some st =>
    if st.is_complete then s0
    else
      complete_migration t
        ((targets_to_resume st).foldl
          (fun acc tg => migrate_target_table_effect tg (updates tg) t acc) s0)

end MigrationEngineModel

namespace DynamoDBModel

/-- One batch of items as submitted to `batch_write_item`; items are abstract
identifiers. The single-table `RequestItems` dict of the source is flattened
to the list of its put-request items. -/
abbrev Request := List Nat

/-- Outcome of one `dynamodb.batch_write_item` call: either a response whose
`UnprocessedItems` flattens to the given list (empty on full acceptance), or a
`ClientError` carrying its error code. -/
inductive BatchResp where
  | ok (unprocessed : List Nat)
  | clientError (code : String)
  deriving Repr, DecidableEq

/-- The throttling error codes retried by
`_execute_batch_write_with_retry` (`dynamodb_manager.py` line 496). -/
def throttlingCodes : List String :=
  ["ProvisionedThroughputExceededException", "ThrottlingException"]

/-- Observable outcome of `_execute_batch_write_with_retry`: the returned
`(success, unprocessed_items)` pair, the request submitted at each attempt in
order, and the `time.sleep` delays performed in order (exact rationals in
seconds). -/
structure ExecResult where
  success : Bool
  unprocessed : List Nat
  attempts : List Request
  delays : List ℚ
  deriving Repr, DecidableEq

/-- The `for attempt in range(max_retries + 1)` loop of
`DynamoDBManager._execute_batch_write_with_retry` (`dynamodb_manager.py`
lines 454-509), driven by an oracle `resp` giving the store's response to the
request submitted at each attempt index. `gas` counts the remaining loop
iterations (`maxRetries + 1 - attempt` at every call); the `gas = 0` case is
the unreachable `return False, []` after the loop. -/
def execAux (resp : Nat → Request → BatchResp) (maxRetries : Nat) :
    Nat → Nat → Request → ExecResult
  | 0, _, _ => ⟨false, [], [], []⟩
  | gas + 1, attempt, req =>
    match resp attempt req with
    | .ok [] => ⟨true, [], [req], []⟩
    | .ok (u :: us) =>
      if attempt < maxRetries then
        let r := execAux resp maxRetries gas (attempt + 1) (u :: us)
        ⟨r.success, r.unprocessed, req :: r.attempts,
          ((2 : ℚ) ^ attempt * (1 / 10)) :: r.delays⟩
      else
        ⟨true, u :: us, [req], []⟩
    | .clientError code =>
      if code ∈ throttlingCodes ∧ attempt < maxRetries then
        let r := execAux resp maxRetries gas (attempt + 1) req
        ⟨r.success, r.unprocessed, req :: r.attempts,
          ((2 : ℚ) ^ attempt * (1 / 2)) :: r.delays⟩
      else if attempt = maxRetries then
        ⟨false, [], [req], []⟩
      else
        let r := execAux resp maxRetries gas (attempt + 1) req
        ⟨r.success, r.unprocessed, req :: r.attempts, r.delays⟩

/-- `DynamoDBManager._execute_batch_write_with_retry` entered at attempt 0
with the full iteration budget. -/
def execBatchWrite (resp : Nat → Request → BatchResp) (maxRetries : Nat)
    (req : Request) : ExecResult :=
  execAux resp maxRetries (maxRetries + 1) 0 req

/-- The consecutive-attempt discipline of the retry loop: each retried request
is exactly the unprocessed subset the store reported for the previous attempt.
`k` is the attempt index of the first listed request. -/
inductive ChainResp (resp : Nat → Request → BatchResp) : Nat → List Request → Prop where
  | nil (k : Nat) : ChainResp resp k []
  | single (k : Nat) (r : Request) : ChainResp resp k [r]
  | cons (k : Nat) (r rr : Request) (l : List Request) :
      resp k r = .ok rr → ChainResp resp (k + 1) (rr :: l) →
      ChainResp resp k (r :: rr :: l)

/-- The chunk split performed by `DynamoDBManager.batch_write_items`
(`dynamodb_manager.py` lines 420-427): `items[i:i + batch_size]` for
`i = 0, batch_size, 2*batch_size, ...`. -/
def chunkList (batch_size : Nat) : List Nat → List (List Nat)
  | [] => []
  | x :: xs => (x :: xs.take (batch_size - 1)) :: chunkList batch_size (xs.drop (batch_size - 1))
termination_by l => l.length
decreasing_by simp only [List.length_cons, List.length_drop]; omega

/-- The chunks submitted by `DynamoDBManager.batch_write_items` for a given
configured batch size: `batch_size = min(25, self.config['batch_size'])`
(`dynamodb_manager.py` line 421). -/
def batch_write_chunks (configBatchSize : Nat) (items : List Nat) : List (List Nat) :=
  chunkList (min 25 configBatchSize) items

end DynamoDBModel

namespace LoadStateModel

/-- JSON values as produced by `json.load`. -/
inductive Json where
  | null
  | bool (b : Bool)
  | num (n : Int)
  | str (s : String)
  | arr (xs : List Json)
  | obj (fields : List (String × Json))
  deriving Repr

/-- Content of the checkpoint file as seen by `StateManager.load_state`:
absent, present but not parseable as JSON (`json.JSONDecodeError`), or parsed
to a JSON value. -/
inductive FileContent where
  | absent
  | unparsable
  | parsed (j : Json)
  deriving Repr

/-- The error `load_state` surfaces: the distinguished
`ValueError("Invalid state file format: ...")` raised from the
`except (json.JSONDecodeError, TypeError, KeyError)` handler
(`state_manager.py` lines 184-185), or an `AttributeError` escaping the
handler (calling `.get`/`.items` on a non-dict value). -/
inductive LoadErr where
  | valueError
  | attributeError
  deriving Repr, DecidableEq

/-- Lookup in a JSON object's field list (first occurrence). -/
def lookupJ (l : List (String × Json)) (n : String) : Option Json :=
  match l with
  | [] => none
  | p :: rest => if p.1 = n then some p.2 else lookupJ rest n

/-- Keyword-argument names accepted by the `TableState` dataclass constructor. -/
def tableStateFields : List String :=
  ["table_name", "status", "total_records", "migrated_records",
   "last_processed_id", "start_time", "end_time", "error_count", "last_error"]

/-- `TableState` fields without defaults. -/
def tableStateRequired : List String := ["table_name", "status"]

/-- Keyword-argument names accepted by the `MigrationState` dataclass
constructor. -/
def migrationStateFields : List String :=
  ["migration_id", "status", "start_time", "end_time", "source_db_path",
   "total_tables", "completed_tables", "total_records", "migrated_records",
   "error_count", "last_checkpoint", "table_states"]

/-- `MigrationState` fields without defaults. -/
def migrationStateRequired : List String := ["migration_id", "status"]

/-- Whether `Cls(**kw)` succeeds for a dataclass: every key must name a field
and every default-less field must be present. Python dataclasses perform no
type validation of the values. -/
def kwargsOk (fields required : List String) (kw : List (String × Json)) : Bool :=
  (kw.all fun p => fields.contains p.1) &&
  (required.all fun f => (lookupJ kw f).isSome)

/-- A `TableState` as materialized by `TableState(**table_data)`: raw JSON
values land in the fields unvalidated. -/
structure TableStateJ where
  table_name : Json
  status : Json
  total_records : Json
  migrated_records : Json
  last_processed_id : Json
  start_time : Json
  end_time : Json
  error_count : Json
  last_error : Json
  deriving Repr

/-- Field extraction for `TableState(**kw)` with the dataclass defaults. -/
def buildTableStateJ (kw : List (String × Json)) : TableStateJ :=
  { table_name := (lookupJ kw "table_name").getD .null
    status := (lookupJ kw "status").getD .null
    total_records := (lookupJ kw "total_records").getD (.num 0)
    migrated_records := (lookupJ kw "migrated_records").getD (.num 0)
    last_processed_id := (lookupJ kw "last_processed_id").getD .null
    start_time := (lookupJ kw "start_time").getD .null
    end_time := (lookupJ kw "end_time").getD .null
    error_count := (lookupJ kw "error_count").getD (.num 0)
    last_error := (lookupJ kw "last_error").getD .null }

/-- A `MigrationState` as materialized by `MigrationState(**state_data)`. -/
structure MigrationStateJ where
  migration_id : Json
  status : Json
  start_time : Json
  end_time : Json
  source_db_path : Json
  total_tables : Json
  completed_tables : Json
  total_records : Json
  migrated_records : Json
  error_count : Json
  last_checkpoint : Json
  table_states : List (String × TableStateJ)
  deriving Repr

/-- Field extraction for `MigrationState(**state_data)` after
`state_data['table_states']` was replaced by the converted map. -/
def buildMigrationStateJ (kw : List (String × Json))
    (tss : List (String × TableStateJ)) : MigrationStateJ :=
  { migration_id := (lookupJ kw "migration_id").getD .null
    status := (lookupJ kw "status").getD .null
    start_time := (lookupJ kw "start_time").getD .null
    end_time := (lookupJ kw "end_time").getD .null
    source_db_path := (lookupJ kw "source_db_path").getD (.str "")
    total_tables := (lookupJ kw "total_tables").getD (.num 0)
    completed_tables := (lookupJ kw "completed_tables").getD (.num 0)
    total_records := (lookupJ kw "total_records").getD (.num 0)
    migrated_records := (lookupJ kw "migrated_records").getD (.num 0)
    error_count := (lookupJ kw "error_count").getD (.num 0)
    last_checkpoint := (lookupJ kw "last_checkpoint").getD .null
    table_states := tss }

/-- The `for table_name, table_data in ... .items()` loop
(`state_manager.py` lines 174-176): `TableState(**table_data)` raises
`TypeError` — caught and converted to `ValueError` — when `table_data` is not
a mapping or its keys do not fit the dataclass signature. -/
def buildTableStates : List (String × Json) → Except LoadErr (List (String × TableStateJ))
  | [] => .ok []
  | (n, td) :: rest =>
    match td with
    | .obj kw =>
      if kwargsOk tableStateFields tableStateRequired kw then
        match buildTableStates rest with
        | .ok r => .ok ((n, buildTableStateJ kw) :: r)
        | .error e => .error e
      else .error .valueError
    | _ => .error .valueError

/-- `StateManager.load_state` (`state_manager.py` lines 159-185) over the
modelled file content. An absent file returns `none`; a JSON parse failure is
converted to the distinguished `ValueError`; `.get('table_states', {})` and
`.items()` on non-dict values raise `AttributeError`, which the handler does
not catch; kwargs-level `TypeError`s become `ValueError`; a structurally
well-keyed object materializes unvalidated. -/
def load_state (content : FileContent) : Except LoadErr (Option MigrationStateJ) :=
  match content with
  | .absent => .ok none
  | .unparsable => .error .valueError
  | .parsed (.obj kvs) =>
    match (lookupJ kvs "table_states").getD (.obj []) with
    | .obj tkvs =>
      match buildTableStates tkvs with
      | .error e => .error e
      | .ok tss =>
        if (kvs.all fun p => migrationStateFields.contains p.1) &&
           (migrationStateRequired.all fun f => (lookupJ kvs f).isSome) then
          .ok (some (buildMigrationStateJ kvs tss))
        else .error .valueError
    | _ => .error .attributeError
  | .parsed _ => .error .attributeError

/-- `load_state` together with its effect on `self.current_state`: the
assignment `self.current_state = MigrationState(**state_data)` happens only
when construction succeeds; every raising path leaves it untouched, as does
the absent-file early return. -/
def load_state_store (current : Option MigrationStateJ) (content : FileContent) :
    Except LoadErr (Option MigrationStateJ) × Option MigrationStateJ :=
  match load_state content with
  | .ok (some st) => (.ok (some st), some st)
  | .ok none => (.ok none, current)
  | .error e => (.error e, current)

end LoadStateModel

namespace StateManagerModel

/-- Division as the partial operation it is in Python: `a / b` raises
`ZeroDivisionError` when `b = 0`, modelled as `none`. -/
def pdiv (a b : ℚ) : Option ℚ :=
  if b = 0 then none else some (a / b)

/-- `TableState.progress_percentage` (`state_manager.py` lines 40-45): `0.0`
when `total_records` is zero, else `(migrated_records / total_records) * 100`.
Numeric values are exact rationals. -/
def TableState.progress_percentage (ts : TableState) : Option ℚ :=
  if ts.total_records = 0 then some 0
  else (pdiv (ts.migrated_records : ℚ) (ts.total_records : ℚ)).map fun q => q * 100

/-- `MigrationState.progress_percentage` (`state_manager.py` lines 80-85). -/
def MigrationState.progress_percentage (st : MigrationState) : Option ℚ :=
  if st.total_records = 0 then some 0
  else (pdiv (st.migrated_records : ℚ) (st.total_records : ℚ)).map fun q => q * 100

/-- The run status recorded in the in-memory state, if any. -/
def runStatus (s : StoreState) : Option String :=
  s.current.map MigrationState.status

/-- Whether an in-memory state exists and every one of its groups is
`COMPLETED`. -/
def allGroupsCompletedB (o : Option MigrationState) : Bool :=
  match o with
  | none => false
  | some st => st.table_states.all fun p => p.2.status == MigrationStatus.COMPLETED

/-- The per-group progress invariant of spec §8:
`migratedRecords ≤ totalRecords` and
`status = COMPLETED → migratedRecords = totalRecords`. -/
def groupOkB (ts : TableState) : Bool :=
  decide (ts.migrated_records ≤ ts.total_records) &&
  (if ts.status == MigrationStatus.COMPLETED
   then ts.migrated_records == ts.total_records else true)

/-- `groupOkB` over every group of an optional snapshot. -/
def stateGroupsOkB (o : Option MigrationState) : Bool :=
  match o with
  | none => true
  | some st => st.table_states.all fun p => groupOkB p.2

/-- `groupOkB` over both the in-memory state and the persisted snapshot. -/
def storeGroupsOkB (s : StoreState) : Bool :=
  stateGroupsOkB s.current && stateGroupsOkB s.file

/-- `total_tables` agrees with the number of groups (true of every state the
store can reach; `initialize_migration` sets it from the same dict). -/
def totalTablesOk (o : Option MigrationState) : Prop :=
  ∀ st, o = some st → st.total_tables = st.table_states.length

/-- A small reachable store used to instantiate the reachability theorems:
one migration of groups `A` (2 records) and `B` (3 records). -/
def exInit : StoreState :=
  initialize_migration "m" [("A", 2), ("B", 3)] "db" 0 ⟨none, none⟩

end StateManagerModel

namespace MigrationEngineModel

open StateManagerModel

/-- The checkpoint of spec §8's resume-correctness scenario, keyed — as
`MigrationEngine.migrate_all` keys it via `analyzer.tables` — by source table
names: group 1 (`Artist`, 20 records) COMPLETED, group 2 (`Album`, 50
records) IN_PROGRESS with 15 migrated, group 3 (`Track`, 100 records)
NOT_STARTED. -/
def resume_checkpoint : MigrationState :=
  { migration_id := "resume-1"
    status := MigrationStatus.IN_PROGRESS
    start_time := some 0
    total_tables := 3
    completed_tables := 1
    total_records := 170
    migrated_records := 35
    table_states :=
      [("Artist", { table_name := "Artist", status := MigrationStatus.COMPLETED,
                    total_records := 20, migrated_records := 20,
                    start_time := some 0, end_time := some 1 }),
       ("Album", { table_name := "Album", status := MigrationStatus.IN_PROGRESS,
                   total_records := 50, migrated_records := 15,
                   last_processed_id := some "15", start_time := some 1 }),
       ("Track", { table_name := "Track", status := MigrationStatus.NOT_STARTED,
                   total_records := 100 })] }

/-- The store at the start of `resume()`: the checkpoint is persisted, the
fresh process has no in-memory state yet. -/
def resume_scenario : StoreState :=
  ⟨none, some resume_checkpoint⟩

/-- The store after `MigrationEngine.resume_migration` succeeds on
`resume_scenario` (batch sizes chosen so `music_catalog` reports two progress
updates and `playlist_data` one; the choice is irrelevant — see
`c3_resume_leaves_groups_incomplete`). -/
def resume_final : StoreState :=
  resume_migration_effect
    (fun tg => if tg = "music_catalog" then [(25, some "25"), (50, some "50")]
               else [(100, some "100")]) 7 resume_scenario

end MigrationEngineModel

namespace LoadStateModel

/-- The fifth corruption scenario of
`tests/test_incremental_migration_extended.py` (line 497):
`'{"migration_id": null, "status": "invalid"}'` — well-formed JSON whose
fields are structurally invalid for a run snapshot. -/
def bad_checkpoint : FileContent :=
  .parsed (.obj [("migration_id", Json.null), ("status", Json.str "invalid")])

end LoadStateModel

namespace StateManagerModel

/-- Group-name keys of an optional snapshot form a duplicate-free list (true
of every state the store can reach, since `initialize_migration` builds the
map from a Python dict). -/
def keysOk (o : Option MigrationState) : Prop :=
  ∀ st, o = some st → (st.table_states.map Prod.fst).Nodup

/-- Every group of an optional snapshot satisfies `groupOkB`. -/
def groupsOk (o : Option MigrationState) : Prop :=
  ∀ st, o = some st → ∀ p ∈ st.table_states, groupOkB p.2 = true

/-- C10: `progress_percentage` on both `TableState` and `MigrationState` is
total: when `total_records = 0` it returns `0.0` rather than dividing by
zero, and otherwise returns `migrated_records / total_records * 100`; the
division-by-zero branch is unreachable. -/
theorem c10_progress_percentage_total (ts : TableState) (st : MigrationState) :
    ((ts.total_records = 0 ∧ ts.progress_percentage = some 0) ∨
     (ts.total_records ≠ 0 ∧
       ts.progress_percentage =
         some ((ts.migrated_records : ℚ) / (ts.total_records : ℚ) * 100))) ∧
    (ts.progress_percentage).isSome = true ∧
    ((st.total_records = 0 ∧ st.progress_percentage = some 0) ∨
     (st.total_records ≠ 0 ∧
       st.progress_percentage =
         some ((st.migrated_records : ℚ) / (st.total_records : ℚ) * 100))) ∧
    (st.progress_percentage).isSome = true := by
  have h1 : (ts.total_records = 0 ∧ ts.progress_percentage = some 0) ∨
      (ts.total_records ≠ 0 ∧
        ts.progress_percentage =
          some ((ts.migrated_records : ℚ) / (ts.total_records : ℚ) * 100)) := by
    by_cases h : ts.total_records = 0
    · exact Or.inl ⟨h, by simp [TableState.progress_percentage, h]⟩
    · have hq : ((ts.total_records : ℚ)) ≠ 0 := by exact_mod_cast h
      exact Or.inr ⟨h, by simp [TableState.progress_percentage, pdiv, h, hq]⟩
  have h2 : (st.total_records = 0 ∧ st.progress_percentage = some 0) ∨
      (st.total_records ≠ 0 ∧
        st.progress_percentage =
          some ((st.migrated_records : ℚ) / (st.total_records : ℚ) * 100)) := by
    by_cases h : st.total_records = 0
    · exact Or.inl ⟨h, by simp [MigrationState.progress_percentage, h]⟩
    · have hq : ((st.total_records : ℚ)) ≠ 0 := by exact_mod_cast h
      exact Or.inr ⟨h, by simp [MigrationState.progress_percentage, pdiv, h, hq]⟩
  refine ⟨h1, ?_, h2, ?_⟩
  · rcases h1 with ⟨_, h⟩ | ⟨_, h⟩ <;> simp [h]
  · rcases h2 with ⟨_, h⟩ | ⟨_, h⟩ <;> simp [h]

/-- C9: calling a per-group checkpoint mutator with a group name that is not
a key of `table_states`, or with no current state, is a silent no-op on the
whole store; `record_error` is the exception: with a state present it still
increments the run-level error count and persists, leaving every group
untouched. -/
theorem c9_unknown_group_is_noop (s : StoreState) (name : String) (cnt : Nat)
    (lid : Option String) (t : Nat) (msg : String) :
    ((s.current = none ∨ ∀ st, s.current = some st → lookupTable st.table_states name = none) →
      update_table_progress name cnt lid t s = s ∧
      start_table_migration name t s = s ∧
      complete_table_migration name t s = s) ∧
    (s.current = none → record_error name msg t s = s) ∧
    (∀ st, s.current = some st → lookupTable st.table_states name = none →
      record_error name msg t s =
        ⟨some { st with error_count := st.error_count + 1 },
         some { st with error_count := st.error_count + 1, last_checkpoint := some t }⟩) := by
  obtain ⟨cur, fl⟩ := s
  refine ⟨?_, ?_, ?_⟩
  · intro h
    cases cur with
    | none => exact ⟨rfl, rfl, rfl⟩
    | some st =>
      have hl : lookupTable st.table_states name = none := by
        rcases h with h | h
        · exact absurd h (by simp)
        · exact h st rfl
      refine ⟨?_, ?_, ?_⟩
      · simp only [update_table_progress, hl]
      · simp only [start_table_migration, hl]
      · simp only [complete_table_migration, hl]
  · intro h
    cases h
    rfl
  · intro st hc hl
    simp only [Option.some.injEq] at hc
    subst hc
    simp only [record_error]
    have hl2 : lookupTable
        ({ st with error_count := st.error_count + 1 } : MigrationState).table_states name
        = none := hl
    simp only [hl2, Option.isSome_none, Bool.false_eq_true, if_false, save_state]

/-- Witness for C9 at a concrete store: mutators aimed at the unknown group
`ghost` leave the store unchanged, and `record_error` bumps only the
run-level error count. -/
theorem c9_unknown_group_is_noop_witness :
    update_table_progress "ghost" 5 none 9 exInit = exInit ∧
    complete_table_migration "ghost" 9 exInit = exInit := by
  have h := c9_unknown_group_is_noop exInit "ghost" 5 none 9 "boom"
  have hg := h.1 (Or.inr (by decide))
  exact ⟨hg.1, hg.2.2⟩

end StateManagerModel

namespace StateManagerModel

/-- C1 counterexample: the reachable state produced by initializing one group
and calling `complete_migration` — exactly the sequence `migrate_all`
performs — has run status `COMPLETED` while its only group is still
`NOT_STARTED`, in memory and on disk. -/
theorem c1_counterexample :
    Reach false (complete_migration 1 (initialize_migration "m" [("A", 5)] "db" 0 ⟨none, none⟩)) ∧
    runStatus (complete_migration 1 (initialize_migration "m" [("A", 5)] "db" 0 ⟨none, none⟩)) =
      some MigrationStatus.COMPLETED ∧
    ((complete_migration 1 (initialize_migration "m" [("A", 5)] "db" 0 ⟨none, none⟩)).current.map
      fun st => st.table_states.map fun p => p.2.status) = some [MigrationStatus.NOT_STARTED] ∧
    ((complete_migration 1 (initialize_migration "m" [("A", 5)] "db" 0 ⟨none, none⟩)).file.map
      fun st => st.table_states.map fun p => p.2.status) = some [MigrationStatus.NOT_STARTED] ∧
    MigrationStatus.NOT_STARTED ≠ MigrationStatus.COMPLETED := by
  refine ⟨?_, by decide, by decide, by decide, by decide⟩
  exact Reach.completeMig false 1 _
    (Reach.init false "m" "db" [("A", 5)] 0 ⟨none, none⟩ (Reach.empty false) (by decide))

/-- C2 counterexample: after the mutation `complete_table_migration "A"` on a
run with groups `A` (2 records) and `B` (3 records), the run-level
`migrated_records` is 0 while the per-group sum is 2 — the mutator updates
the group but never recomputes the run total. -/
theorem c2_counterexample :
    Reach false (complete_table_migration "A" 1 exInit) ∧
    ((complete_table_migration "A" 1 exInit).current.map
      fun st => (st.migrated_records, sumMigrated st.table_states)) = some (0, 2) ∧
    (0 : Nat) ≠ 2 := by
  refine ⟨?_, by decide, by decide⟩
  exact Reach.completeTable false "A" 1 exInit
    (Reach.init false "m" "db" [("A", 2), ("B", 3)] 0 ⟨none, none⟩ (Reach.empty false) (by decide))

/-- C7 counterexample: the trace of
`tests/test_incremental_migration.py::test_single_record_table` — initialize
`SingleRecord` with 1 record, start it, report progress 1 — reaches a
persisted state (even under the disciplined update usage) whose group shows
`migrated_records = total_records = 1` while its status is still
`IN_PROGRESS`: full progress does not imply `COMPLETED`. -/
theorem c7_counterexample :
    Reach true (update_table_progress "SingleRecord" 1 none 2
      (start_table_migration "SingleRecord" 1
        (initialize_migration "m" [("SingleRecord", 1)] "db" 0 ⟨none, none⟩))) ∧
    ((update_table_progress "SingleRecord" 1 none 2
      (start_table_migration "SingleRecord" 1
        (initialize_migration "m" [("SingleRecord", 1)] "db" 0 ⟨none, none⟩))).current.map
      fun st => st.table_states.map fun p => (p.2.status, p.2.migrated_records, p.2.total_records))
      = some [(MigrationStatus.IN_PROGRESS, 1, 1)] ∧
    MigrationStatus.IN_PROGRESS ≠ MigrationStatus.COMPLETED := by
  refine ⟨?_, by decide, by decide⟩
  exact Reach.update true "SingleRecord" 1 none 2 _
    (Reach.start true "SingleRecord" 1 _
      (Reach.init true "m" "db" [("SingleRecord", 1)] 0 ⟨none, none⟩ (Reach.empty true)
        (by decide)))
    (fun _ => by decide)

end StateManagerModel

namespace LoadStateModel

/-- C4 counterexample: on the repo's own fifth corruption scenario —
`{"migration_id": null, "status": "invalid"}` — `load_state` raises nothing
and materializes a run state carrying the structurally invalid values, rather
than raising the distinguished corruption error. -/
theorem c4_counterexample :
    load_state bad_checkpoint =
      .ok (some
        { migration_id := .null
          status := .str "invalid"
          start_time := .null
          end_time := .null
          source_db_path := .str ""
          total_tables := .num 0
          completed_tables := .num 0
          total_records := .num 0
          migrated_records := .num 0
          error_count := .num 0
          last_checkpoint := .null
          table_states := [] }) ∧
    (load_state_store none bad_checkpoint).2.isSome = true := by
  exact ⟨rfl, rfl⟩

end LoadStateModel

namespace MigrationEngineModel

open StateManagerModel

/-- C3, evaluated at the spec §8 resume scenario: `get_resume_info` correctly
lists `Album` and `Track` as incomplete, but the engine regroups them into the
target tables `music_catalog` and `playlist_data` and calls every per-group
mutator with those target names — which are not keys of the source-keyed
`table_states` — so after a fully successful resume the run is `COMPLETED`
with `migrated_records = 170` while `Album` is still `IN_PROGRESS` at 15 of
50 and `Track` still `NOT_STARTED` at 0 of 100, in memory and in the persisted
checkpoint. -/
theorem c3_resume_leaves_groups_incomplete :
    incomplete_table_names resume_checkpoint = ["Album", "Track"] ∧
    targets_to_resume resume_checkpoint = ["music_catalog", "playlist_data"] ∧
    runStatus resume_final = some MigrationStatus.COMPLETED ∧
    (resume_final.current.map fun st => st.migrated_records) = some 170 ∧
    (resume_final.current.map fun st =>
      st.table_states.map fun p => (p.1, p.2.status, p.2.migrated_records)) =
      some [("Artist", MigrationStatus.COMPLETED, 20),
            ("Album", MigrationStatus.IN_PROGRESS, 15),
            ("Track", MigrationStatus.NOT_STARTED, 0)] ∧
    (resume_final.file.map fun st =>
      st.table_states.map fun p => (p.1, p.2.status, p.2.migrated_records)) =
      some [("Artist", MigrationStatus.COMPLETED, 20),
            ("Album", MigrationStatus.IN_PROGRESS, 15),
            ("Track", MigrationStatus.NOT_STARTED, 0)] := by
  refine ⟨by decide, by decide, by decide, by decide, by decide, by decide⟩

end MigrationEngineModel

namespace DynamoDBModel

/-- Concatenating the chunks gives back the item list: every item lands in
exactly one chunk and chunk order follows input order. -/
theorem chunkList_flatten (bs : Nat) (l : List Nat) : (chunkList bs l).flatten = l := by
  induction l using chunkList.induct bs with
  | case1 => simp [chunkList]
  | case2 x xs ih =>
    rw [chunkList, List.flatten_cons, List.cons_append, ih]
    simp [List.take_append_drop]

/-- Every chunk is non-empty and no larger than the batch size. -/
theorem chunkList_length (bs : Nat) (hbs : 1 ≤ bs) (l : List Nat) :
    ∀ c ∈ chunkList bs l, c ≠ [] ∧ c.length ≤ bs := by
  induction l using chunkList.induct bs with
  | case1 => simp [chunkList]
  | case2 x xs ih =>
    intro c hc
    rw [chunkList] at hc
    rcases List.mem_cons.mp hc with h | h
    · subst h
      refine ⟨by simp, ?_⟩
      simp only [List.length_cons, List.length_take]
      omega
    · exact ih c h

/-- C8: for every item list, `batch_write_items` splits it into consecutive
chunks each of size at most `min(configuredBatchSize, 25)`, every input item
appears in exactly one chunk, and chunks are submitted in input order
(their concatenation is the input). -/
theorem c8_batch_write_chunking (configBatchSize : Nat) (items : List Nat)
    (h : 1 ≤ configBatchSize) :
    (batch_write_chunks configBatchSize items).flatten = items ∧
    (items ≠ [] → batch_write_chunks configBatchSize items ≠ []) ∧
    ∀ c ∈ batch_write_chunks configBatchSize items,
      c ≠ [] ∧ c.length ≤ min configBatchSize 25 := by
  have hbs : 1 ≤ min 25 configBatchSize := le_min (by omega) h
  have hfl : (batch_write_chunks configBatchSize items).flatten = items :=
    chunkList_flatten _ _
  refine ⟨hfl, ?_, ?_⟩
  · intro hne hch
    rw [hch] at hfl
    exact hne hfl.symm
  · intro c hc
    have h2 := chunkList_length _ hbs items c hc
    refine ⟨h2.1, ?_⟩
    rw [Nat.min_comm]
    exact h2.2

/-- Witness for C8: a batch size of 10 over three items gives back the items
in order. -/
theorem c8_batch_write_chunking_witness :
    (batch_write_chunks 10 [0, 1, 2]).flatten = [0, 1, 2] :=
  (c8_batch_write_chunking 10 [0, 1, 2] (by decide)).1

end DynamoDBModel

namespace StateManagerModel

/-- `updateTable` keeps the number of entries. -/
theorem updateTable_length (l : List (String × TableState)) (n : String)
    (f : TableState → TableState) : (updateTable l n f).length = l.length :=
  List.length_map l _

/-- `updateTable` keeps the key list. -/
theorem updateTable_map_fst (l : List (String × TableState)) (n : String)
    (f : TableState → TableState) :
    (updateTable l n f).map Prod.fst = l.map Prod.fst := by
  induction l with
  | nil => rfl
  | cons p rest ih =>
    simp only [updateTable, List.map_cons] at ih ⊢
    by_cases hp : p.1 = n
    · simp [hp, ih]
    · simp [hp, ih]

/-- With duplicate-free keys, lookup finds the value of any member entry with
the matching key. -/
theorem lookupTable_of_mem_nodup (l : List (String × TableState)) (n : String)
    (q : String × TableState) (hnd : (l.map Prod.fst).Nodup) (hq : q ∈ l)
    (hqn : q.1 = n) : lookupTable l n = some q.2 := by
  induction l with
  | nil => cases hq
  | cons p rest ih =>
    simp only [List.map_cons, List.nodup_cons] at hnd
    rcases List.mem_cons.mp hq with h | h
    · subst h
      simp [lookupTable, hqn]
    · have hpn : p.1 ≠ n := by
        intro hc
        have hm : q.1 ∈ rest.map Prod.fst := List.mem_map_of_mem Prod.fst h
        rw [hqn, ← hc] at hm
        exact hnd.1 hm
      simp only [lookupTable, hpn, if_false]
      exact ih hnd.2 h

/-- Both components of a freshly saved store satisfy the key and group
invariants once its in-memory snapshot does. -/
theorem inv_pair (d : Bool) (A B : MigrationState) (hAB : B.table_states = A.table_states)
    (hk : (A.table_states.map Prod.fst).Nodup)
    (hg : d = true → ∀ p ∈ A.table_states, groupOkB p.2 = true) :
    (keysOk (some A) ∧ keysOk (some B)) ∧
    (d = true → groupsOk (some A) ∧ groupsOk (some B)) := by
  refine ⟨⟨?_, ?_⟩, fun hd => ⟨?_, ?_⟩⟩ <;> intro st hst <;> cases hst
  · exact hk
  · rw [hAB]
    exact hk
  · exact hg hd
  · rw [hAB]
    exact hg hd

/-- In every reachable store state, `total_tables` equals the number of
groups (both in memory and in the persisted snapshot). -/
theorem reach_totalTables {d : Bool} {s : StoreState} (h : Reach d s) :
    totalTablesOk s.current ∧ totalTablesOk s.file := by
  induction h with
  | empty => exact ⟨(fun st h => nomatch h), fun st h => nomatch h⟩
  | init mid src info t s hprev hnodup ih =>
    constructor <;> intro st hst <;>
      simp only [initialize_migration, save_state, Option.some.injEq] at hst <;>
      subst hst <;> simp [List.length_map]
  | load s hprev ih =>
    obtain ⟨cur, fl⟩ := s
    cases fl with
    | none => exact ih
    | some st =>
      refine ⟨?_, ih.2⟩
      intro st2 hst2
      simp only [load_state_effect, Option.some.injEq] at hst2
      subst hst2
      exact ih.2 _ rfl
  | update name cnt lid t s hprev hd ih =>
    obtain ⟨cur, fl⟩ := s
    cases cur with
    | none => exact ih
    | some st =>
      cases hlk : lookupTable st.table_states name with
      | none => simpa only [update_table_progress, hlk] using ih
      | some ts =>
        simp only [update_table_progress, hlk, save_state]
        constructor <;> intro st2 hst2 <;> simp only [Option.some.injEq] at hst2 <;>
          subst hst2 <;>
          simpa [updateTable_length] using ih.1 st rfl
  | start name t s hprev ih =>
    obtain ⟨cur, fl⟩ := s
    cases cur with
    | none => exact ih
    | some st =>
      cases hlk : lookupTable st.table_states name with
      | none => simpa only [start_table_migration, hlk] using ih
      | some ts =>
        simp only [start_table_migration, hlk, save_state]
        constructor <;> intro st2 hst2 <;> simp only [Option.some.injEq] at hst2 <;>
          subst hst2 <;>
          simpa [updateTable_length] using ih.1 st rfl
  | completeTable name t s hprev ih =>
    obtain ⟨cur, fl⟩ := s
    cases cur with
    | none => exact ih
    | some st =>
      cases hlk : lookupTable st.table_states name with
      | none => simpa only [complete_table_migration, hlk] using ih
      | some ts =>
        have hbase := ih.1 st rfl
        simp only [complete_table_migration, hlk]
        split
        · simp only [complete_migration, save_state]
          constructor <;> intro st2 hst2 <;> simp only [Option.some.injEq] at hst2 <;>
            subst hst2 <;> simpa [updateTable_length] using hbase
        · simp only [save_state]
          constructor <;> intro st2 hst2 <;> simp only [Option.some.injEq] at hst2 <;>
            subst hst2 <;> simpa [updateTable_length] using hbase
  | completeMig t s hprev ih =>
    obtain ⟨cur, fl⟩ := s
    cases cur with
    | none => exact ih
    | some st =>
      have hbase := ih.1 st rfl
      simp only [complete_migration, save_state]
      constructor <;> intro st2 hst2 <;> simp only [Option.some.injEq] at hst2 <;>
        subst hst2 <;> simpa using hbase
  | recordErr name msg t s hprev ih =>
    obtain ⟨cur, fl⟩ := s
    cases cur with
    | none => exact ih
    | some st =>
      have hbase := ih.1 st rfl
      simp only [record_error, save_state]
      split
      · constructor <;> intro st2 hst2 <;> simp only [Option.some.injEq] at hst2 <;>
          subst hst2 <;> simpa [updateTable_length] using hbase
      · constructor <;> intro st2 hst2 <;> simp only [Option.some.injEq] at hst2 <;>
          subst hst2 <;> simpa using hbase
  | reset s hprev ih =>
    exact ⟨(fun st h => nomatch h), fun st h => nomatch h⟩
  | pause t s hprev ih =>
    obtain ⟨cur, fl⟩ := s
    cases cur with
    | none => exact ih
    | some st =>
      have hbase := ih.1 st rfl
      simp only [pause_migration, save_state]
      constructor <;> intro st2 hst2 <;> simp only [Option.some.injEq] at hst2 <;>
        subst hst2 <;> simpa using hbase
  | resumeStatus t s hprev ih =>
    obtain ⟨cur, fl⟩ := s
    cases cur with
    | none => exact ih
    | some st =>
      have hbase := ih.1 st rfl
      simp only [resume_migration_status]
      split
      · simp only [save_state]
        constructor <;> intro st2 hst2 <;> simp only [Option.some.injEq] at hst2 <;>
          subst hst2 <;> simpa using hbase
      · exact ih

end StateManagerModel

namespace StateManagerModel

/-- Combined induction: reachable stores have duplicate-free group keys, and
disciplined reachable stores additionally satisfy the per-group progress
invariant, in memory and in the persisted snapshot. -/
theorem reach_invariants {d : Bool} {s : StoreState} (h : Reach d s) :
    (keysOk s.current ∧ keysOk s.file) ∧
    (d = true → groupsOk s.current ∧ groupsOk s.file) := by
  induction h with
  | empty =>
    exact ⟨⟨(fun st h => nomatch h), fun st h => nomatch h⟩,
      fun _ => ⟨(fun st h => nomatch h), fun st h => nomatch h⟩⟩
  | init mid src info t s hprev hnodup ih =>
    obtain ⟨cur, fl⟩ := s
    simp only [initialize_migration, save_state]
    refine inv_pair d _ _ rfl ?_ ?_
    · rw [List.map_map]
      exact hnodup
    · intro _ p hp
      rcases List.mem_map.mp hp with ⟨q, _, hq⟩
      subst hq
      have hbeq : (MigrationStatus.NOT_STARTED == MigrationStatus.COMPLETED) = false := by decide
      simp [groupOkB, hbeq]
  | load s hprev ih =>
    obtain ⟨cur, fl⟩ := s
    cases fl with
    | none => exact ih
    | some stf =>
      simp only [load_state_effect]
      refine ⟨⟨?_, ih.1.2⟩, fun hd => ⟨?_, (ih.2 hd).2⟩⟩ <;> intro st hst <;> cases hst
      · exact ih.1.2 _ rfl
      · exact (ih.2 hd).2 _ rfl
  | update name cnt lid t s hprev hdisc ih =>
    obtain ⟨cur, fl⟩ := s
    cases cur with
    | none => exact ih
    | some st =>
      cases hlk : lookupTable st.table_states name with
      | none => simpa only [update_table_progress, hlk] using ih
      | some ts =>
        have hknd := ih.1.1 st rfl
        simp only [update_table_progress, hlk, save_state]
        refine inv_pair d _ _ rfl ?_ ?_
        · rw [updateTable_map_fst]
          exact hknd
        · intro hd p hp
          have hdb := hdisc hd
          simp only [update_discipline, hlk, Bool.and_eq_true, decide_eq_true_eq] at hdb
          have hstat : ts.status = MigrationStatus.IN_PROGRESS := eq_of_beq hdb.2
          rcases List.mem_map.mp hp with ⟨⟨qn, qv⟩, hqmem, hq⟩
          by_cases hqn : qn = name
          · have hqts : qv = ts := by
              have hlq := lookupTable_of_mem_nodup st.table_states name (qn, qv) hknd hqmem hqn
              rw [hlk] at hlq
              exact (Option.some.inj hlq).symm
            subst hqts
            rw [if_pos hqn] at hq
            subst hq
            have hbeq : (MigrationStatus.IN_PROGRESS == MigrationStatus.COMPLETED) = false := by
              decide
            cases lid with
            | none => simp [groupOkB, hstat, hbeq, hdb.1]
            | some l =>
              dsimp only
              split <;> simp [groupOkB, hstat, hbeq, hdb.1]
          · rw [if_neg hqn] at hq
            subst hq
            exact (ih.2 hd).1 st rfl (qn, qv) hqmem
  | start name t s hprev ih =>
    obtain ⟨cur, fl⟩ := s
    cases cur with
    | none => exact ih
    | some st =>
      cases hlk : lookupTable st.table_states name with
      | none => simpa only [start_table_migration, hlk] using ih
      | some ts =>
        simp only [start_table_migration, hlk, save_state]
        refine inv_pair d _ _ rfl ?_ ?_
        · rw [updateTable_map_fst]
          exact ih.1.1 st rfl
        · intro hd p hp
          rcases List.mem_map.mp hp with ⟨⟨qn, qv⟩, hqmem, hq⟩
          have hgq := (ih.2 hd).1 st rfl (qn, qv) hqmem
          by_cases hqn : qn = name
          · rw [if_pos hqn] at hq
            subst hq
            simp only [groupOkB, Bool.and_eq_true, decide_eq_true_eq] at hgq
            have hbeq : (MigrationStatus.IN_PROGRESS == MigrationStatus.COMPLETED) = false := by
              decide
            simp [groupOkB, hbeq, hgq.1]
          · rw [if_neg hqn] at hq
            subst hq
            exact hgq
  | completeTable name t s hprev ih =>
    obtain ⟨cur, fl⟩ := s
    cases cur with
    | none => exact ih
    | some st =>
      cases hlk : lookupTable st.table_states name with
      | none => simpa only [complete_table_migration, hlk] using ih
      | some ts =>
        have hk1 : ((updateTable st.table_states name fun ts =>
            { ts with status := MigrationStatus.COMPLETED, end_time := some t,
                      migrated_records := ts.total_records }).map Prod.fst).Nodup := by
          rw [updateTable_map_fst]
          exact ih.1.1 st rfl
        have hg1 : d = true → ∀ p ∈ (updateTable st.table_states name fun ts =>
            { ts with status := MigrationStatus.COMPLETED, end_time := some t,
                      migrated_records := ts.total_records }), groupOkB p.2 = true := by
          intro hd p hp
          rcases List.mem_map.mp hp with ⟨⟨qn, qv⟩, hqmem, hq⟩
          by_cases hqn : qn = name
          · rw [if_pos hqn] at hq
            subst hq
            simp [groupOkB]
          · rw [if_neg hqn] at hq
            subst hq
            exact (ih.2 hd).1 st rfl (qn, qv) hqmem
        simp only [complete_table_migration, hlk]
        split
        · simp only [complete_migration, save_state]
          exact inv_pair d _ _ rfl hk1 hg1
        · simp only [save_state]
          exact inv_pair d _ _ rfl hk1 hg1
  | completeMig t s hprev ih =>
    obtain ⟨cur, fl⟩ := s
    cases cur with
    | none => exact ih
    | some st =>
      simp only [complete_migration, save_state]
      exact inv_pair d _ _ rfl (ih.1.1 st rfl) (fun hd => (ih.2 hd).1 st rfl)
  | recordErr name msg t s hprev ih =>
    obtain ⟨cur, fl⟩ := s
    cases cur with
    | none => exact ih
    | some st =>
      simp only [record_error]
      split
      · simp only [save_state]
        refine inv_pair d _ _ rfl ?_ ?_
        · rw [updateTable_map_fst]
          exact ih.1.1 st rfl
        · intro hd p hp
          rcases List.mem_map.mp hp with ⟨⟨qn, qv⟩, hqmem, hq⟩
          have hgq := (ih.2 hd).1 st rfl (qn, qv) hqmem
          by_cases hqn : qn = name
          · rw [if_pos hqn] at hq
            subst hq
            exact hgq
          · rw [if_neg hqn] at hq
            subst hq
            exact hgq
      · simp only [save_state]
        exact inv_pair d _ _ rfl (ih.1.1 st rfl) (fun hd => (ih.2 hd).1 st rfl)
  | reset s hprev ih =>
    exact ⟨⟨(fun st h => nomatch h), fun st h => nomatch h⟩,
      fun _ => ⟨(fun st h => nomatch h), fun st h => nomatch h⟩⟩
  | pause t s hprev ih =>
    obtain ⟨cur, fl⟩ := s
    cases cur with
    | none => exact ih
    | some st =>
      simp only [pause_migration, save_state]
      exact inv_pair d _ _ rfl (ih.1.1 st rfl) (fun hd => (ih.2 hd).1 st rfl)
  | resumeStatus t s hprev ih =>
    obtain ⟨cur, fl⟩ := s
    cases cur with
    | none => exact ih
    | some st =>
      simp only [resume_migration_status]
      split
      · simp only [save_state]
        exact inv_pair d _ _ rfl (ih.1.1 st rfl) (fun hd => (ih.2 hd).1 st rfl)
      · exact ih

end StateManagerModel

namespace StateManagerModel

/-- C1 amended: the run status reaches `COMPLETED` through
`complete_table_migration`'s auto-trigger only when every group is
`COMPLETED`: for a reachable store whose run is not yet `COMPLETED`, if
`complete_table_migration` leaves the run `COMPLETED` then every group of the
resulting in-memory state and persisted snapshot is `COMPLETED`. (A direct
`complete_migration` call gives no such guarantee — see the
counterexample.) -/
theorem c1_autocomplete_all_groups_completed (s : StoreState) (name : String) (t : Nat)
    (h : Reach false s) (st : MigrationState) (hc : s.current = some st)
    (hnc : st.status ≠ MigrationStatus.COMPLETED)
    (hcomp : runStatus (complete_table_migration name t s) = some MigrationStatus.COMPLETED) :
    allGroupsCompletedB (complete_table_migration name t s).current = true ∧
    allGroupsCompletedB (complete_table_migration name t s).file = true := by
  have hTT := (reach_totalTables h).1 st hc
  obtain ⟨cur, fl⟩ := s
  simp only at hc
  subst hc
  simp only [complete_table_migration] at hcomp ⊢
  cases hlk : lookupTable st.table_states name with
  | none =>
    simp only [hlk, runStatus, Option.map, Option.some.injEq] at hcomp
    exact absurd hcomp hnc
  | some ts =>
    simp only [hlk] at hcomp ⊢
    split at hcomp
    next hcc =>
      rw [if_pos hcc]
      have hlen : (updateTable st.table_states name fun ts =>
          { ts with status := MigrationStatus.COMPLETED, end_time := some t,
                    migrated_records := ts.total_records }).length
          = st.table_states.length := updateTable_length _ _ _
      have hall : ∀ p ∈ (updateTable st.table_states name fun ts =>
          { ts with status := MigrationStatus.COMPLETED, end_time := some t,
                    migrated_records := ts.total_records }),
          p.2.is_complete = true := by
        rw [← List.countP_eq_length]
        rw [countCompleted] at hcc
        omega
      constructor <;>
        simp only [complete_migration, save_state, allGroupsCompletedB, List.all_eq_true] <;>
        exact fun p hp => hall p hp
    next hcc =>
      rw [if_neg hcc]
      simp only [save_state, runStatus, Option.map, Option.some.injEq] at hcomp
      exact absurd hcomp hnc

/-- Witness for the amended C1: completing the single group `A` of a fresh
run auto-completes the run, and all groups are indeed `COMPLETED`. -/
theorem c1_autocomplete_all_groups_completed_witness :
    allGroupsCompletedB (complete_table_migration "A" 1
      (initialize_migration "m" [("A", 1)] "db" 0 ⟨none, none⟩)).current = true := by
  have h := c1_autocomplete_all_groups_completed
    (initialize_migration "m" [("A", 1)] "db" 0 ⟨none, none⟩) "A" 1
    (Reach.init false "m" "db" [("A", 1)] 0 ⟨none, none⟩ (Reach.empty false) (by decide))
    { migration_id := "m", status := MigrationStatus.IN_PROGRESS, start_time := some 0,
      source_db_path := "db", total_tables := 1, total_records := 1,
      table_states := [("A", { table_name := "A", status := MigrationStatus.NOT_STARTED,
                               total_records := 1 })] }
    (by decide) (by decide) (by decide)
  exact h.1

/-- C7 amended: in every store state reachable under the coordinator's update
discipline (progress counts bounded by the group's total, updates only to
`IN_PROGRESS` groups), every group — in memory and in the persisted
snapshot — satisfies `migrated_records ≤ total_records` and
`status = COMPLETED → migrated_records = total_records`. The converse
implication of the claimed biconditional is refuted by the counterexample. -/
theorem c7_group_progress_invariant (s : StoreState) (h : Reach true s) :
    storeGroupsOkB s = true := by
  have hi := (reach_invariants h).2 rfl
  have h1 : stateGroupsOkB s.current = true := by
    cases hc : s.current with
    | none => rfl
    | some st =>
      simp only [stateGroupsOkB, List.all_eq_true]
      exact fun p hp => hi.1 st hc p hp
  have h2 : stateGroupsOkB s.file = true := by
    cases hc : s.file with
    | none => rfl
    | some st =>
      simp only [stateGroupsOkB, List.all_eq_true]
      exact fun p hp => hi.2 st hc p hp
  simp only [storeGroupsOkB, h1, h2, Bool.and_self]

/-- Witness for the amended C7 on the disciplined three-step trace of the
repo's single-record test. -/
theorem c7_group_progress_invariant_witness :
    storeGroupsOkB (update_table_progress "SingleRecord" 1 none 2
      (start_table_migration "SingleRecord" 1
        (initialize_migration "m" [("SingleRecord", 1)] "db" 0 ⟨none, none⟩))) = true :=
  c7_group_progress_invariant _
    (Reach.update true "SingleRecord" 1 none 2 _
      (Reach.start true "SingleRecord" 1 _
        (Reach.init true "m" "db" [("SingleRecord", 1)] 0 ⟨none, none⟩ (Reach.empty true)
          (by decide)))
      (fun _ => by decide))

/-- C2 amended: `initialize_migration` establishes both the run-level sum
equality (`migratedRecords(run) = Σ migratedRecords(group)`) and
`migratedRecords ≤ totalRecords` per group, and `update_table_progress`
re-establishes the sum equality after every effective call; but
`complete_table_migration` and `complete_migration` do not preserve the sum
equality (see the counterexample), so it does not hold after every
mutation. -/
theorem c2_sum_reestablished (migration_id source_db : String)
    (info : List (String × Nat)) (t : Nat) (s s2 : StoreState) (name : String)
    (cnt : Nat) (lid : Option String) (t2 : Nat) :
    (∀ st, (initialize_migration migration_id info source_db t s).current = some st →
      st.migrated_records = sumMigrated st.table_states ∧
      ∀ p ∈ st.table_states, p.2.migrated_records ≤ p.2.total_records) ∧
    (∀ st st2, s2.current = some st → (lookupTable st.table_states name).isSome →
      (update_table_progress name cnt lid t2 s2).current = some st2 →
      st2.migrated_records = sumMigrated st2.table_states) := by
  constructor
  · intro st hst
    simp only [initialize_migration, save_state, Option.some.injEq] at hst
    subst hst
    constructor
    · show (0 : Nat) = sumMigrated _
      rw [eq_comm, sumMigrated, List.map_map, List.sum_eq_zero_iff]
      intro x hx
      rcases List.mem_map.mp hx with ⟨p, _, hp⟩
      simp [← hp, Function.comp]
    · intro p hp
      rcases List.mem_map.mp hp with ⟨q, _, hq⟩
      simp [← hq]
  · intro st st2 hc hl hupd
    obtain ⟨cur, fl⟩ := s2
    simp only at hc
    subst hc
    simp only [update_table_progress] at hupd
    cases hlk : lookupTable st.table_states name with
    | none =>
      rw [hlk] at hl
      simp at hl
    | some ts =>
      rw [hlk] at hupd
      simp only [save_state, Option.some.injEq] at hupd
      subst hupd
      rfl

/-- Witness for the amended C2: after updating group `A` of `exInit` to one
migrated record, the run total again equals the per-group sum. -/
theorem c2_sum_reestablished_witness :
    ({ migration_id := "m", status := MigrationStatus.IN_PROGRESS, start_time := some 0,
       source_db_path := "db", total_tables := 2, total_records := 5,
       migrated_records := 1,
       table_states :=
         [("A", { table_name := "A", status := MigrationStatus.NOT_STARTED,
                  total_records := 2, migrated_records := 1 }),
          ("B", { table_name := "B", status := MigrationStatus.NOT_STARTED,
                  total_records := 3 })] } : MigrationState).migrated_records =
      sumMigrated
        [("A", { table_name := "A", status := MigrationStatus.NOT_STARTED,
                 total_records := 2, migrated_records := 1 }),
         ("B", { table_name := "B", status := MigrationStatus.NOT_STARTED,
                 total_records := 3 })] := by
  refine (c2_sum_reestablished "m" "db" [] 0 ⟨none, none⟩ exInit "A" 1 none 1).2
    { migration_id := "m", status := MigrationStatus.IN_PROGRESS, start_time := some 0,
      source_db_path := "db", total_tables := 2, total_records := 5,
      table_states :=
        [("A", { table_name := "A", status := MigrationStatus.NOT_STARTED,
                 total_records := 2 }),
         ("B", { table_name := "B", status := MigrationStatus.NOT_STARTED,
                 total_records := 3 })] }
    _ (by decide) (by decide) (by decide)

end StateManagerModel

namespace LoadStateModel

/-- Every error `buildTableStates` produces is the distinguished
`ValueError`: the `TypeError`s of `TableState(**table_data)` are all caught
by the handler at `state_manager.py` lines 184-185. -/
theorem buildTableStates_error_valueError (tkvs : List (String × Json)) (e : LoadErr)
    (h : buildTableStates tkvs = .error e) : e = .valueError := by
  induction tkvs with
  | nil => cases h
  | cons p rest ih =>
    obtain ⟨m, td⟩ := p
    cases td with
    | obj kw =>
      simp only [buildTableStates] at h
      by_cases hk : kwargsOk tableStateFields tableStateRequired kw = true
      · rw [if_pos hk] at h
        cases hb : buildTableStates rest with
        | ok r =>
          rw [hb] at h
          cases h
        | error e2 =>
          rw [hb] at h
          cases h
          exact ih hb
      · rw [if_neg hk] at h
        cases h
        rfl
    | null => cases h; rfl
    | bool b => cases h; rfl
    | num n => cases h; rfl
    | str s => cases h; rfl
    | arr xs => cases h; rfl

/-- A `table_states` entry whose value is not a mapping makes
`TableState(**table_data)` raise a `TypeError`, converted to the
distinguished `ValueError`. -/
theorem buildTableStates_bad_entry (tkvs : List (String × Json)) (n : String) (td : Json)
    (hmem : (n, td) ∈ tkvs) (hbad : ∀ kw, td ≠ Json.obj kw) :
    buildTableStates tkvs = .error .valueError := by
  induction tkvs with
  | nil => cases hmem
  | cons p rest ih =>
    obtain ⟨m, e⟩ := p
    rcases List.mem_cons.mp hmem with h | h
    · injection h with h1 h2
      subst h2
      cases td with
      | obj kw => exact absurd rfl (hbad kw)
      | null => rfl
      | bool b => rfl
      | num nn => rfl
      | str s => rfl
      | arr xs => rfl
    · have hrest := ih h
      cases e with
      | obj kw =>
        simp only [buildTableStates, hrest]
        by_cases hk : kwargsOk tableStateFields tableStateRequired kw = true
        · rw [if_pos hk]
        · rw [if_neg hk]
      | null => rfl
      | bool b => rfl
      | num nn => rfl
      | str s => rfl
      | arr xs => rfl

/-- C4 amended: `load_state` returns `none` for an absent file and leaves the
in-memory state untouched; unparsable JSON raises the distinguished
`ValueError`; every raising path leaves the in-memory state untouched;
kwargs-level structural problems also raise the distinguished `ValueError` —
a top-level object with an unknown or missing required dataclass key, or a
`table_states` entry whose value is not a mapping; but a top-level non-object
of any kind raises an undistinguished `AttributeError` instead of the
`ValueError`, and (per the counterexample) type-invalid values inside a
well-keyed object are accepted and materialized rather than raising. -/
theorem c4_load_state_errors (current : Option MigrationStateJ) (content : FileContent) :
    (content = .absent → load_state_store current content = (.ok none, current)) ∧
    (content = .unparsable → load_state_store current content = (.error .valueError, current)) ∧
    (∀ e, (load_state_store current content).1 = .error e →
      (load_state_store current content).2 = current) ∧
    (∀ j : Json, (∀ kvs, j ≠ Json.obj kvs) →
      load_state (.parsed j) = .error .attributeError) ∧
    (∀ kvs tkvs, (lookupJ kvs "table_states").getD (Json.obj []) = Json.obj tkvs →
      ((kvs.all fun p => migrationStateFields.contains p.1) &&
       (migrationStateRequired.all fun f => (lookupJ kvs f).isSome)) = false →
      load_state (.parsed (.obj kvs)) = .error .valueError) ∧
    (∀ kvs tkvs n td, (lookupJ kvs "table_states").getD (Json.obj []) = Json.obj tkvs →
      (n, td) ∈ tkvs → (∀ kw, td ≠ Json.obj kw) →
      load_state (.parsed (.obj kvs)) = .error .valueError) := by
  refine ⟨?_, ?_, ?_, ?_, ?_, ?_⟩
  · intro h
    subst h
    rfl
  · intro h
    subst h
    rfl
  · intro e h
    simp only [load_state_store] at h ⊢
    cases hl : load_state content with
    | ok o =>
      cases o with
      | none => simp [hl]
      | some st =>
        rw [hl] at h
        simp at h
    | error e2 => simp [hl]
  · intro j hj
    cases j with
    | obj kvs => exact absurd rfl (hj kvs)
    | null => rfl
    | bool b => rfl
    | num n => rfl
    | str s => rfl
    | arr xs => rfl
  · intro kvs tkvs hts hfail
    cases hb : buildTableStates tkvs with
    | error e =>
      have he := buildTableStates_error_valueError tkvs e hb
      subst he
      simp [load_state, hts, hb]
    | ok tss =>
      have hcond : ¬(((kvs.all fun p => migrationStateFields.contains p.1) &&
          (migrationStateRequired.all fun f => (lookupJ kvs f).isSome)) = true) := by
        rw [hfail]
        simp
      simp [load_state, hts, hb]
      simpa using hcond
  · intro kvs tkvs n td hts hmem hbad
    have hb := buildTableStates_bad_entry tkvs n td hmem hbad
    simp [load_state, hts, hb]

/-- Witness for the amended C4: an absent checkpoint file loads as `None`
without touching the in-memory state, and the repo's corruption scenario 3 —
`{"valid_json": "but_wrong_schema"}`, an unknown dataclass key — raises the
distinguished `ValueError`. -/
theorem c4_load_state_errors_witness :
    load_state_store none FileContent.absent = (.ok none, none) ∧
    load_state (.parsed (.obj [("valid_json", Json.str "but_wrong_schema")])) =
      .error .valueError :=
  ⟨(c4_load_state_errors none FileContent.absent).1 rfl,
   (c4_load_state_errors none
      (.parsed (.obj [("valid_json", Json.str "but_wrong_schema")]))).2.2.2.2.1
     [("valid_json", Json.str "but_wrong_schema")] [] rfl (by decide)⟩

end LoadStateModel

namespace DynamoDBModel

/-- Generalized loop invariant of the retry loop under a store that never
raises: each iteration either finishes or retries exactly the reported
unprocessed subset after the documented backoff delay. -/
theorem execAux_all_ok (resp : Nat → Request → BatchResp) (maxRetries : Nat)
    (hresp : ∀ a r, ∃ u, resp a r = BatchResp.ok u) :
    ∀ gas attempt req, attempt + gas = maxRetries + 1 → attempt ≤ maxRetries →
    (execAux resp maxRetries gas attempt req).success = true ∧
    (execAux resp maxRetries gas attempt req).attempts.head? = some req ∧
    1 ≤ (execAux resp maxRetries gas attempt req).attempts.length ∧
    (execAux resp maxRetries gas attempt req).attempts.length ≤ gas ∧
    (execAux resp maxRetries gas attempt req).delays =
      (List.range ((execAux resp maxRetries gas attempt req).attempts.length - 1)).map
        (fun j => (2 : ℚ) ^ (attempt + j) * (1 / 10)) ∧
    ChainResp resp attempt (execAux resp maxRetries gas attempt req).attempts ∧
    ∃ lastReq u,
      (execAux resp maxRetries gas attempt req).attempts.getLast? = some lastReq ∧
      resp (attempt + ((execAux resp maxRetries gas attempt req).attempts.length - 1)) lastReq
        = BatchResp.ok u ∧
      (execAux resp maxRetries gas attempt req).unprocessed = u := by
  intro gas
  induction gas with
  | zero =>
    intro attempt req hsum hle
    omega
  | succ gas ih =>
    intro attempt req hsum hle
    obtain ⟨u, hu⟩ := hresp attempt req
    simp only [execAux]
    rw [hu]
    cases u with
    | nil =>
      refine ⟨rfl, rfl, by simp, by simp, by simp, ChainResp.single attempt req,
        req, [], rfl, ?_, rfl⟩
      simpa using hu
    | cons v vs =>
      dsimp only
      by_cases hlt : attempt < maxRetries
      · rw [if_pos hlt]
        have hih := ih (attempt + 1) (v :: vs) (by omega) (by omega)
        obtain ⟨hsucc, hhead, hlen1, hlenle, hdel, hchain, lastReq, u2, hlast, hresp2, hunp⟩ := hih
        obtain ⟨tail, htail⟩ : ∃ tail,
            (execAux resp maxRetries gas (attempt + 1) (v :: vs)).attempts
              = (v :: vs) :: tail := by
          cases hat : (execAux resp maxRetries gas (attempt + 1) (v :: vs)).attempts with
          | nil =>
            rw [hat] at hhead
            cases hhead
          | cons a tail =>
            rw [hat] at hhead
            simp only [List.head?_cons, Option.some.injEq] at hhead
            exact ⟨tail, by rw [hhead]⟩
        refine ⟨hsucc, rfl, by simp, ?_, ?_, ?_, lastReq, u2, ?_, ?_, hunp⟩
        · simp only [List.length_cons]
          omega
        · simp only [List.length_cons, Nat.add_sub_cancel]
          have hlen : (execAux resp maxRetries gas (attempt + 1) (v :: vs)).attempts.length
              = ((execAux resp maxRetries gas (attempt + 1) (v :: vs)).attempts.length - 1)
                + 1 := by
            omega
          rw [hdel]
          conv_rhs => rw [hlen, List.range_succ_eq_map, List.map_cons, List.map_map]
          congr 1
          norm_num
          intro a ha
          omega
        · rw [htail]
          exact ChainResp.cons attempt req (v :: vs) tail hu (htail ▸ hchain)
        · rw [htail]
          rw [htail] at hlast
          cases tail with
          | nil => simpa using hlast
          | cons b t2 => simpa using hlast
        · rw [htail] at hresp2 ⊢
          have harith : attempt + (tail.length + 1 + 1 - 1) = attempt + 1 + (tail.length + 1 - 1) := by
            omega
          simp only [List.length_cons] at hresp2 ⊢
          rw [harith]
          exact hresp2
      · rw [if_neg hlt]
        refine ⟨rfl, rfl, by simp, by simp, by simp, ChainResp.single attempt req,
          req, v :: vs, rfl, ?_, rfl⟩
        simpa using hu

/-- The backoff delays of the unprocessed-retry policy form a non-decreasing
sequence. -/
theorem delays_chain_le (k : Nat) :
    List.Chain' (· ≤ ·) ((List.range k).map fun j => (2 : ℚ) ^ j * (1 / 10)) := by
  rw [List.chain'_map]
  cases k with
  | zero => simp
  | succ n =>
    rw [List.chain'_range_succ]
    intro m _
    have h2 : (2 : ℚ) ^ m ≤ 2 ^ (m + 1) := by
      apply pow_le_pow_right₀ (by norm_num) (by omega)
    have h10 : (0 : ℚ) ≤ 1 / 10 := by norm_num
    exact mul_le_mul_of_nonneg_right h2 h10

/-- C5: when the store only ever reports unprocessed subsets (never raises),
the batch write retries exactly the reported unprocessed subset each time,
makes at most `maxRetries + 1` attempts, sleeps `0.1 × 2^attempt` between
attempts (a non-decreasing sequence), and returns `(True, unresolved items of
the final response)` without raising — the empty list when the store finally
accepted everything. -/
theorem c5_transient_retry_policy (resp : Nat → Request → BatchResp) (maxRetries : Nat)
    (req : Request) (hresp : ∀ a r, ∃ u, resp a r = BatchResp.ok u) :
    (execBatchWrite resp maxRetries req).success = true ∧
    (execBatchWrite resp maxRetries req).attempts.head? = some req ∧
    (execBatchWrite resp maxRetries req).attempts.length ≤ maxRetries + 1 ∧
    (execBatchWrite resp maxRetries req).delays =
      (List.range ((execBatchWrite resp maxRetries req).attempts.length - 1)).map
        (fun j => (2 : ℚ) ^ j * (1 / 10)) ∧
    List.Chain' (· ≤ ·) (execBatchWrite resp maxRetries req).delays ∧
    ChainResp resp 0 (execBatchWrite resp maxRetries req).attempts ∧
    ∃ lastReq u,
      (execBatchWrite resp maxRetries req).attempts.getLast? = some lastReq ∧
      resp ((execBatchWrite resp maxRetries req).attempts.length - 1) lastReq
        = BatchResp.ok u ∧
      (execBatchWrite resp maxRetries req).unprocessed = u := by
  obtain ⟨h1, h2, h3, h4, h5, h6, lastReq, u, h7, h8, h9⟩ :=
    execAux_all_ok resp maxRetries hresp (maxRetries + 1) 0 req (by omega) (by omega)
  have hdel : (execBatchWrite resp maxRetries req).delays =
      (List.range ((execBatchWrite resp maxRetries req).attempts.length - 1)).map
        (fun j => (2 : ℚ) ^ j * (1 / 10)) := by
    rw [execBatchWrite, h5]
    apply List.map_congr_left
    intro a _
    rw [Nat.zero_add]
  refine ⟨h1, h2, h4, hdel, ?_, h6, lastReq, u, h7, ?_, h9⟩
  · rw [hdel]
    exact delays_chain_le _
  · rw [Nat.zero_add] at h8
    exact h8

/-- Witness for C5: a store that rejects item 7 on the first call and accepts
on the second yields a fully successful write with one backoff sleep. -/
theorem c5_transient_retry_policy_witness :
    (execBatchWrite (fun a _ => if a = 0 then BatchResp.ok [7] else BatchResp.ok []) 3
      [5, 7]).success = true ∧
    List.Chain' (· ≤ ·)
      (execBatchWrite (fun a _ => if a = 0 then BatchResp.ok [7] else BatchResp.ok []) 3
        [5, 7]).delays := by
  have h := c5_transient_retry_policy
    (fun a _ => if a = 0 then BatchResp.ok [7] else BatchResp.ok []) 3 [5, 7]
    (fun a r => by
      by_cases ha : a = 0
      · exact ⟨[7], by simp [ha]⟩
      · exact ⟨[], by simp [ha]⟩)
  exact ⟨h.1, h.2.2.2.2.1⟩

/-- Under a store that always raises the same non-retryable `ClientError`,
every loop iteration falls through the handler and re-enters the loop with
the same request and no sleep, until the final attempt returns `(False, [])`. -/
theorem execAux_fatal (resp : Nat → Request → BatchResp) (maxRetries : Nat)
    (code : String) (hcode : code ∉ throttlingCodes)
    (hresp : ∀ a r, resp a r = BatchResp.clientError code) :
    ∀ gas attempt req, attempt + gas = maxRetries + 1 →
    execAux resp maxRetries gas attempt req =
      ⟨false, [], List.replicate gas req, []⟩ := by
  intro gas
  induction gas with
  | zero =>
    intro attempt req hsum
    rfl
  | succ gas ih =>
    intro attempt req hsum
    simp only [execAux]
    rw [hresp attempt req]
    dsimp only
    have hnot : ¬(code ∈ throttlingCodes ∧ attempt < maxRetries) := fun hh => hcode hh.1
    rw [if_neg hnot]
    by_cases heq : attempt = maxRetries
    · rw [if_pos heq]
      have hg0 : gas = 0 := by omega
      subst hg0
      rfl
    · rw [if_neg heq]
      rw [ih (attempt + 1) req (by omega)]
      rfl

/-- C6 amended: a non-retryable `ClientError` does not abort the call on the
first response; the loop re-submits the identical request on every remaining
attempt with no delay, and only after all `maxRetries + 1` attempts does the
call return `(False, [])` — reporting failure of the whole write call without
raising. -/
theorem c6_nonretryable_retried_to_failure (resp : Nat → Request → BatchResp)
    (maxRetries : Nat) (req : Request) (code : String)
    (hcode : code ∉ throttlingCodes)
    (hresp : ∀ a r, resp a r = BatchResp.clientError code) :
    execBatchWrite resp maxRetries req =
      ⟨false, [], List.replicate (maxRetries + 1) req, []⟩ ∧
    (execBatchWrite resp maxRetries req).attempts.length = maxRetries + 1 ∧
    (execBatchWrite resp maxRetries req).delays = [] := by
  have h := execAux_fatal resp maxRetries code hcode hresp (maxRetries + 1) 0 req (by omega)
  rw [execBatchWrite, h]
  exact ⟨rfl, by simp, rfl⟩

/-- Witness for the amended C6 at `maxRetries = 2`: three identical attempts,
no delays, failure result. -/
theorem c6_nonretryable_retried_to_failure_witness :
    execBatchWrite (fun _ _ => BatchResp.clientError "ValidationException") 2 [9] =
      ⟨false, [], List.replicate 3 [9], []⟩ :=
  (c6_nonretryable_retried_to_failure _ 2 [9] "ValidationException" (by decide)
    (fun _ _ => rfl)).1

/-- C6 counterexample: with the default `max_retries = 3`, a store that
always answers `AccessDeniedException` (not a throttling code) sees four
submissions of the batch, not one — the call does not abort on the first
non-retryable response. -/
theorem c6_counterexample :
    (execBatchWrite (fun _ _ => BatchResp.clientError "AccessDeniedException") 3
      [1, 2]).attempts.length = 4 ∧
    (execBatchWrite (fun _ _ => BatchResp.clientError "AccessDeniedException") 3
      [1, 2]).attempts.length ≠ 1 ∧
    (execBatchWrite (fun _ _ => BatchResp.clientError "AccessDeniedException") 3
      [1, 2]).success = false := by
  refine ⟨by decide, by decide, by decide⟩

end DynamoDBModel
